import Mathlib

/-!
Verification of the RCA report generator (`src/app.py`).

The whole program is one Flask request handler, `generate`, plus three
helpers (`allowed_file`, `is_image`, `add_logo`).  We embed it shallowly:

* machine effects (disk writes, the outbound tracker POST) become an
  explicit `Effect` trace;
* the wall clock (`datetime.utcnow().strftime(...)`) is injected as a
  function `Nat → String` giving the timestamp string drawn at the k-th
  file save;
* out-of-scope collaborators (font metrics `canvas.stringWidth`, the image
  decoder `PIL.Image.open`, the tracker's HTTP response, the presence of
  the logo file on disk) are injected as environment fields;
* the PDF canvas becomes a flat list of drawing operations with explicit
  `newPage` markers; `reportlab`'s float coordinates are modelled with `ℚ`
  (every coordinate in the source is produced by `+ - * /` and `min` on
  constants and environment-supplied sizes, so the page-break and layout
  structure is faithfully captured by exact arithmetic).

All definitions up to `generate` are translated line-by-line from
`src/app.py`; definitions whose names start with `spec` restate what the
specification's words demand, for comparison with the code-side ones.
-/

namespace RCA

/-! ### Python string primitives used by the handler -/

/-- Python `str.strip()`: drop leading and trailing whitespace. -/
def pyStrip (s : String) : String :=
  String.mk
    (((s.toList.dropWhile Char.isWhitespace).reverse.dropWhile
        Char.isWhitespace).reverse)

/-- Python `s.split(c)` for a one-character separator: keeps empty
pieces, and the empty string yields `[""]`. -/
def splitOnCharGo (c : Char) : List Char → List Char → List String
  | [], acc => [String.mk acc.reverse]
  | x :: rest, acc =>
    if x = c then String.mk acc.reverse :: splitOnCharGo c rest []
    else splitOnCharGo c rest (x :: acc)

/-- Python `s.split(c)` (see `splitOnCharGo`). -/
def splitOnChar (c : Char) (s : String) : List String :=
  splitOnCharGo c s.toList []

/-- Python `s.split()` with no argument: split on whitespace runs,
discarding empty pieces. -/
def splitWsGo : List Char → List Char → List String
  | [], acc => if acc.isEmpty then [] else [String.mk acc.reverse]
  | x :: rest, acc =>
    if x.isWhitespace then
      if acc.isEmpty then splitWsGo rest []
      else String.mk acc.reverse :: splitWsGo rest []
    else splitWsGo rest (x :: acc)

/-- Python `s.split()` (see `splitWsGo`). -/
def splitWs (s : String) : List String :=
  splitWsGo s.toList []

/-- Python `s.lower()` for ASCII strings. -/
def lowerStr (s : String) : String :=
  String.mk (s.toList.map Char.toLower)

/-- Python `s.rsplit(".", 1)[1]`: the substring after the last dot, or
`none` when the string has no dot (in Python the index raises
`IndexError` in that case). -/
def rsplitExt (s : String) : Option String :=
  if s.toList.contains '.' then
    some (String.mk (s.toList.reverse.takeWhile (fun c => c ≠ '.')).reverse)
  else none

/-- Python `str.splitlines` restricted to the line breaks that can occur in
form input: splits on `\r\n`, `\r` and `\n`, producing no trailing empty
line for a trailing break, and `[]` for the empty string. -/
def splitlinesGo : List Char → List Char → List String
  | [], acc => if acc.isEmpty then [] else [String.mk acc.reverse]
  | '\r' :: '\n' :: rest, acc => String.mk acc.reverse :: splitlinesGo rest []
  | '\r' :: rest, acc => String.mk acc.reverse :: splitlinesGo rest []
  | '\n' :: rest, acc => String.mk acc.reverse :: splitlinesGo rest []
  | c :: rest, acc => splitlinesGo rest (c :: acc)

/-- Python `str.splitlines` (see `splitlinesGo`). -/
def splitlines (s : String) : List String :=
  splitlinesGo s.toList []

/-- Characters kept by `werkzeug.utils.secure_filename`'s strip regex
`[^A-Za-z0-9_.-]`. -/
def keepChar (c : Char) : Bool :=
  ('A' ≤ c && c ≤ 'Z') || ('a' ≤ c && c ≤ 'z') || ('0' ≤ c && c ≤ '9') ||
    c == '_' || c == '.' || c == '-'

/-- Model of `werkzeug.utils.secure_filename` for ASCII input (the NFKD/ASCII
normalisation step is the identity there): path separators become spaces,
whitespace runs become a single `_`, characters outside `[A-Za-z0-9_.-]`
are removed, and leading/trailing `.`/`_` are stripped. -/
def secure_filename (s : String) : String :=
  let s1 := String.mk (s.toList.map (fun c => if c == '/' then ' ' else c))
  let joined := String.intercalate "_" (splitWs s1)
  let kept := (joined.toList.filter keepChar)
  let l1 := kept.dropWhile (fun c => c == '.' || c == '_')
  let l2 := (l1.reverse.dropWhile (fun c => c == '.' || c == '_')).reverse
  String.mk l2

/-- Model of `os.path.splitext` for a path without separators: split at the last
dot, provided at least one character before that dot is not itself a dot
(so hidden files such as `.bashrc` have no extension). -/
def splitext (p : String) : String × String :=
  let l := p.toList
  let extRev := l.reverse.takeWhile (fun c => c ≠ '.')
  if extRev.length = l.length then (p, "")
  else
    let cut := l.length - extRev.length - 1
    if (l.take cut).any (fun c => c ≠ '.') then
      (String.mk (l.take cut), String.mk (l.drop cut))
    else (p, "")

/-! ### `allowed_file` / `is_image` (src/app.py lines 15-36) -/

/-- The global upload allow-list `ALLOWED_EXT` (src/app.py lines 15-19). -/
def ALLOWED_EXT : List String :=
  ["png", "jpg", "jpeg", "gif", "bmp",
   "mp4", "mov", "webm", "mkv", "avi",
   "pdf", "txt", "log", "zip"]

/-- Image extensions used by `is_image` (src/app.py line 36). -/
def IMAGE_EXT : List String := ["png", "jpg", "jpeg", "gif", "bmp"]

/-- The helper `allowed_file` (src/app.py lines 31-32): the name contains a dot and
the piece after the last dot, lowercased, is in the allow-list. -/
def allowed_file (filename : String) : Bool :=
  filename.toList.contains '.' &&
    (match rsplitExt filename with
     | some e => ALLOWED_EXT.contains (lowerStr e)
     | none => false)

/-- The helper `is_image` (src/app.py lines 34-36).  The result is `none` when the
name has no dot: Python's `rsplit(".", 1)[1]` raises `IndexError` there,
which the handler does not catch. -/
def is_image (filename : String) : Option Bool :=
  (rsplitExt filename).map (fun e => IMAGE_EXT.contains (lowerStr e))

/-! ### Attachment store (src/app.py lines 78-90) -/

/-- One entry of `request.files.getlist("files")`.  Werkzeug's
`FileStorage` is falsy exactly when its filename is empty, so the guard
`if f and f.filename and ...` reduces to the filename alone. -/
structure Upload where
  filename : String
deriving Repr, DecidableEq

/-- The guard of the save loop (src/app.py line 83). -/
def acceptedUpload (f : Upload) : Bool :=
  (f.filename != "") && allowed_file f.filename

/-- The stored-name suffix rule (src/app.py line 86):
`f"{base}_{timestamp}{ext}"`. -/
def unique_name (base ext ts : String) : String :=
  base ++ "_" ++ ts ++ ext

/-- The full stored filename of an accepted upload (src/app.py lines
84-86): sanitise, split the extension, insert the timestamp token. -/
def storedName (filename ts : String) : String :=
  let safe := secure_filename filename
  unique_name (splitext safe).1 (splitext safe).2 ts

/-- One saved attachment, as recorded in `saved_files`
(src/app.py line 90): `(unique_name, is_image(unique_name), url)`. -/
structure SavedFile where
  name : String
  is_img : Bool
  url : String
deriving Repr, DecidableEq

/-- Observable side effects of the handler: a disk write into the upload
folder, or the outbound POST to the tracker. -/
inductive Effect
  | save (name : String)
  | trackerPost (title body : String)
deriving Repr, DecidableEq

/-- The upload loop (src/app.py lines 82-90).  `clock k` is the
`datetime.utcnow().strftime('%Y%m%d%H%M%S%f')` string observed at the
k-th accepted file.  The file is written (effect emitted) before
`is_image` is evaluated; a `none` from `is_image` is the uncaught
`IndexError`, which aborts the loop (`none` result) after the write. -/
def processUploads (baseUrl : String) (clock : Nat → String) :
    List Upload → Nat → List Effect × Option (List SavedFile)
  | [], _ => ([], some [])
  | f :: fs, k =>
    if acceptedUpload f then
      let n := storedName f.filename (clock k)
      match is_image n with
      | none => ([Effect.save n], none)
      | some b =>
        let r := processUploads baseUrl clock fs (k + 1)
        (Effect.save n :: r.1, r.2.map (fun l => ⟨n, b, baseUrl ++ n⟩ :: l))
    else processUploads baseUrl clock fs k

/-! ### Issue reporter (src/app.py lines 92-116) -/

/-- The two tracker credentials, each `os.getenv` (absent or a string). -/
structure TrackerConfig where
  token : Option String
  repo : Option String

/-- The tracker's HTTP response to the one `requests.post`: status code
and the `html_url` field of the JSON body (absent when the body lacks
that key, matching `r.json().get("html_url")`). -/
structure TrackerResponse where
  status : Nat
  html_url : Option String

/-- Python truthiness of an environment variable: present and non-empty
(`if GITHUB_TOKEN and GITHUB_REPO`, src/app.py line 94). -/
def truthy : Option String → Bool
  | none => false
  | some s => s != ""

/-- The issue title (src/app.py line 95). -/
def issueTitle (site date heading : String) : String :=
  site ++ " - " ++ date ++ " - " ++ heading

/-- One attachment line of the issue body (src/app.py lines 105-109). -/
def attachmentLine (sf : SavedFile) : String :=
  if sf.is_img then "![" ++ sf.name ++ "](" ++ sf.url ++ ")"
  else "- [" ++ sf.name ++ "](" ++ sf.url ++ ")"

/-- The issue body (src/app.py lines 96-110): the fixed metadata lines,
then one line per saved file in saved order, joined by `"\n\n"`. -/
def issueBody (site date heading rca_by description : String)
    (saved : List SavedFile) : String :=
  String.intercalate "\n\n"
    (["**Site:** " ++ site,
      "**Date:** " ++ date,
      "**RCA Heading:** " ++ heading,
      "**RCA By:** " ++ rca_by,
      "\n**Description:**\n",
      description,
      "\n**Attachments:**\n"] ++ saved.map attachmentLine)

/-- The fixed not-configured result string (src/app.py line 116). -/
def NOT_CONFIGURED : String := "GitHub token or repo not configured."

/-- The failure result string embedding the status code
(src/app.py line 114). -/
def failedMsg (status : Nat) : String :=
  "GitHub issue creation failed (" ++ toString status ++ ")."

/-- The issue-creation step (src/app.py lines 93-116): effects (the POST,
when attempted) and the value of `issue_link`.  Note that on a 200/201
response `issue_link` is `r.json().get("html_url")`, which is absent when
the response body has no `html_url` key. -/
def issueLink (cfg : TrackerConfig) (resp : TrackerResponse)
    (site date heading rca_by description : String) (saved : List SavedFile) :
    List Effect × Option String :=
  if truthy cfg.token && truthy cfg.repo then
    ([Effect.trackerPost (issueTitle site date heading)
        (issueBody site date heading rca_by description saved)],
     if resp.status = 200 ∨ resp.status = 201 then resp.html_url
     else some (failedMsg resp.status))
  else ([], some NOT_CONFIGURED)

/-! ### PDF canvas model (src/app.py lines 118-222)

The canvas is a stream of drawing operations; `showPage` is an explicit
`newPage` marker and the finished document is the list of pages obtained
by cutting the stream at those markers.  `setFont` calls are recorded for
faithfulness to the byte stream. -/

/-- One reportlab canvas operation. -/
inductive Op
  | newPage
  | setFont (font : String) (size : ℚ)
  | drawString (x y : ℚ) (s : String)
  | drawImage (path : String) (x y w h : ℚ)
deriving Repr, DecidableEq

/-- A4 width in points (`reportlab.lib.pagesizes.A4`, 210 mm). -/
def pageWidth : ℚ := 75600 / 127

/-- A4 height in points (297 mm). -/
def pageHeight : ℚ := 106920 / 127

/-- The page margin (src/app.py line 122). -/
def margin : ℚ := 50

/-- The logo stamp drawn by `add_logo` (src/app.py lines 38-52):
`drawImage("static/AddverbImage.jpeg", x=40, y=A4[1]-80, width=1.7*inch,
height=0.8*inch)`. -/
def logoOp : Op :=
  Op.drawImage "static/AddverbImage.jpeg" 40 (pageHeight - 80) (612 / 5) (288 / 5)

/-- The layout's collaborators: whether the logo file exists on disk, the
Helvetica-10 string-width metric (`c.stringWidth(·, "Helvetica", 10)`),
the image decoder (`PIL.Image.open(path).size`, `none` on a decode
failure), and the text of the exception shown for a failed decode. -/
structure LayoutEnv where
  logoExists : Bool
  wf : String → ℚ
  imgSize : String → Option (ℚ × ℚ)
  errMsg : String → String

/-- The call `add_logo(c)` as an operation list (empty when the logo file is
missing). -/
def logoOps (env : LayoutEnv) : List Op :=
  if env.logoExists then [logoOp] else []

/-- A page break (`c.showPage(); add_logo(c)`). -/
def pageBreakOps (env : LayoutEnv) : List Op :=
  Op.newPage :: logoOps env

/-- The cursor position set after every page break
(`y = height - margin - 80`, src/app.py lines 184, 198, 214). -/
def freshY : ℚ := pageHeight - margin - 80

/-- The path `os.path.join(UPLOAD_FOLDER, name)` (src/app.py lines 87, 174). -/
def uploadsPath (n : String) : String := "uploads/" ++ n

/-! #### Header and metadata block (src/app.py lines 125-146) -/

/-- One `line(label, value)` call (src/app.py lines 134-140). -/
def metaLineOps (y : ℚ) (label value : String) : List Op :=
  [Op.setFont "Helvetica-Bold" 10, Op.drawString margin y label,
   Op.setFont "Helvetica" 10, Op.drawString (margin + 120) y value]

/-- The logo, title and four metadata lines (src/app.py lines 125-145). -/
def headerOps (env : LayoutEnv) (site date heading rca_by : String) : List Op :=
  logoOps env ++
    [Op.setFont "Helvetica-Bold" 16,
     Op.drawString margin (pageHeight - margin - 90) "RCA Report",
     Op.setFont "Helvetica" 11] ++
    metaLineOps (pageHeight - margin - 120) "Site Name:" site ++
    metaLineOps (pageHeight - margin - 138) "Date:" date ++
    metaLineOps (pageHeight - margin - 156) "Heading:" heading ++
    metaLineOps (pageHeight - margin - 174) "RCA By:" rca_by

/-- The cursor value after the metadata block (src/app.py line 146):
`height - margin` minus 90, 30, four times 18, and 10. -/
def metaEndY : ℚ := pageHeight - 252

/-! #### Description word wrap (src/app.py lines 148-167) -/

/-- The greedy wrap of one paragraph (src/app.py lines 156-164): pack
words while the test line's width stays within `max_width`, else emit the
line and restart from the overflowing word. -/
def wrapParagraph (wf : String → ℚ) (maxW : ℚ) (paragraph : String) : List String :=
  let step := fun (acc : List String × String) w =>
    let test := pyStrip (acc.2 ++ " " ++ w)
    if wf test ≤ maxW then (acc.1, test) else (acc.1 ++ [acc.2], w)
  let r := (splitOnChar ' ' paragraph).foldl step ([], "")
  r.1 ++ [r.2]

/-- All lines fed to the text object: the wrapped lines of each paragraph
followed by one blank line (src/app.py lines 155-165). -/
def descLines (wf : String → ℚ) (description : String) : List String :=
  ((splitlines description).map
      (fun p => wrapParagraph wf (pageWidth - 2 * margin) p ++ [""])).flatten

/-- The text object's draw calls: line `i` at height `y - 12 * i` (the
leading of Helvetica 10 is 12).  There is no page-break logic here: the
source draws the whole text object on the current page. -/
def descOps (y : ℚ) (ls : List String) : List Op :=
  ls.enum.map (fun il => Op.drawString margin (y - 12 * il.1) il.2)

/-- The description section (src/app.py lines 148-167): header, font
switch, the wrapped lines, and the cursor after `y = text.getY() - 20`. -/
def drawDescription (env : LayoutEnv) (description : String) (y : ℚ) :
    List Op × ℚ :=
  let ls := descLines env.wf description
  ([Op.setFont "Helvetica-Bold" 10, Op.drawString margin y "Description:",
    Op.setFont "Helvetica" 10] ++ descOps (y - 14) ls,
   y - 14 - 12 * (ls.length : ℚ) - 20)

/-! #### Image embedding (src/app.py lines 169-190) -/

/-- The scale factor and drawn size of an image (src/app.py lines
177-180): `ratio = min(max_w/im_w, max_h/im_h, 1)`, never upscaling,
with `max_w = width - 2*margin` and `max_h = 3.5*inch = 252`. -/
def scaledSize (imW imH : ℚ) : ℚ × ℚ :=
  let r := min ((pageWidth - 2 * margin) / imW) (min (252 / imH) 1)
  (imW * r, imH * r)

/-- Embedding one image attachment (src/app.py lines 172-190): on a
successful decode, break the page when `y - draw_h < margin + 80`, then
draw at `(margin, y - draw_h)` and advance by `draw_h + 12`; on a decode
failure, draw the inline error notice and advance by 12 (with no space
check). -/
def drawImageStep (env : LayoutEnv) (y : ℚ) (fname : String) : List Op × ℚ :=
  match env.imgSize (uploadsPath fname) with
  | some wh =>
    let s := scaledSize wh.1 wh.2
    let b := if y - s.2 < margin + 80 then (pageBreakOps env, freshY) else ([], y)
    (b.1 ++ [Op.drawImage (uploadsPath fname) margin (b.2 - s.2) s.1 s.2],
     b.2 - (s.2 + 12))
  | none =>
    ([Op.setFont "Helvetica-Oblique" 9,
      Op.drawString margin y
        ("(Error embedding " ++ fname ++ ": " ++ env.errMsg (uploadsPath fname) ++ ")")],
     y - 12)

/-- The image loop (src/app.py lines 171-190): each saved file with
`is_img` set is embedded in order; others are skipped. -/
def drawImages (env : LayoutEnv) (y : ℚ) : List SavedFile → List Op × ℚ
  | [] => ([], y)
  | sf :: rest =>
    if sf.is_img then
      let r := drawImageStep env y sf.name
      let rr := drawImages env r.2 rest
      (r.1 ++ rr.1, rr.2)
    else drawImages env y rest

/-! #### Non-image attachment list (src/app.py lines 192-208) -/

/-- One attachment entry: the `- name` line, the URL line below it
(src/app.py lines 203-208). -/
def attachEntryOps (y : ℚ) (fname url : String) : List Op :=
  [Op.drawString margin y ("- " ++ fname), Op.drawString margin (y - 12) url]

/-- The entry loop: each entry consumes 12 + 12 + 6 = 30 units. -/
def drawAttachEntries (y : ℚ) : List (String × String) → List Op × ℚ
  | [] => ([], y)
  | p :: rest =>
    let rr := drawAttachEntries (y - 30) rest
    (attachEntryOps y p.1 p.2 ++ rr.1, rr.2)

/-- The attachment-list section (src/app.py lines 193-208): nothing when
there are no non-image attachments; otherwise a page break when
`y < margin + 80`, the section header, and the entries. -/
def drawAttachList (env : LayoutEnv) (l : List (String × String)) (y : ℚ) :
    List Op × ℚ :=
  if l.isEmpty then ([], y)
  else
    let b := if y < margin + 80 then (pageBreakOps env, freshY) else ([], y)
    let e := drawAttachEntries (b.2 - 14) l
    (b.1 ++ [Op.setFont "Helvetica-Bold" 10, Op.drawString margin b.2 "Attachments:",
             Op.setFont "Helvetica" 9] ++ e.1,
     e.2)

/-- Python `str(x)` on the `issue_link` value (src/app.py line 218):
`None` prints as `"None"`. -/
def pyStr : Option String → String
  | some s => s
  | none => "None"

/-- The issue-link section (src/app.py lines 210-219): a page break when
`y < margin + 60`, the label, and the stringified link. -/
def drawIssue (env : LayoutEnv) (link : Option String) (y : ℚ) : List Op × ℚ :=
  let b := if y < margin + 60 then (pageBreakOps env, freshY) else ([], y)
  (b.1 ++ [Op.setFont "Helvetica-Bold" 10,
           Op.drawString margin b.2 "GitHub Issue Link:",
           Op.setFont "Helvetica" 9,
           Op.drawString margin (b.2 - 14) (pyStr link)],
   b.2 - 40)

/-- The non-image attachments with their URLs (src/app.py line 193). -/
def nonImagesOf (saved : List SavedFile) : List (String × String) :=
  saved.filterMap (fun sf => if sf.is_img then none else some (sf.name, sf.url))

/-- The complete canvas stream of one report (src/app.py lines 118-221),
ending with the final `c.showPage()`. -/
def renderOps (env : LayoutEnv) (site date heading rca_by description : String)
    (saved : List SavedFile) (link : Option String) : List Op :=
  let p2 := drawDescription env description metaEndY
  let p3 := drawImages env p2.2 saved
  let p4 := drawAttachList env (nonImagesOf saved) p3.2
  let p5 := drawIssue env link p4.2
  headerOps env site date heading rca_by ++ p2.1 ++ p3.1 ++ p4.1 ++ p5.1 ++
    [Op.newPage]

/-- Cut an operation stream into pages at the `newPage` markers; pending
operations after the last marker form a final page only when non-empty
(reportlab's `save`). -/
def pagesOfAux : List Op → List Op → List (List Op)
  | [], cur => if cur.isEmpty then [] else [cur]
  | Op.newPage :: rest, cur => cur :: pagesOfAux rest []
  | op :: rest, cur => pagesOfAux rest (cur ++ [op])

/-- The finished document as a list of pages. -/
def pagesOf (ops : List Op) : List (List Op) := pagesOfAux ops []

/-- The rendered report of one submission. -/
def renderDoc (env : LayoutEnv) (site date heading rca_by description : String)
    (saved : List SavedFile) (link : Option String) : List (List Op) :=
  pagesOf (renderOps env site date heading rca_by description saved link)

/-! ### The request handler (src/app.py lines 65-226) -/

/-- The raw form fields of one `POST /generate`. -/
structure FormData where
  site_name : String
  date : String
  heading : String
  description : String
  rca_by : String
deriving Repr, DecidableEq

/-- The handler's whole environment: the external URL prefix of
`url_for("uploaded_file", ...)`, the injected clock, and the layout
collaborators. -/
structure Env where
  baseUrl : String
  clock : Nat → String
  layout : LayoutEnv

/-- What the handler returns: the flash-and-redirect on a validation
failure, an uncaught exception (HTTP 500), or the document download. -/
inductive GenOutcome
  | validationError (msg : String)
  | serverError
  | ok (issue_link : Option String) (doc : List (List Op)) (download : String)
deriving DecidableEq

/-- The `generate` request handler (src/app.py lines 65-226): trim the
form fields, validate, save uploads, file the issue, render the PDF.
Returns the effect trace and the outcome. -/
def generate (env : Env) (cfg : TrackerConfig) (resp : TrackerResponse)
    (form : FormData) (uploads : List Upload) : List Effect × GenOutcome :=
  let site := pyStrip form.site_name
  let date := pyStrip form.date
  let heading := pyStrip form.heading
  let description := pyStrip form.description
  let rca_by := pyStrip form.rca_by
  if site = "" ∨ date = "" ∨ heading = "" then
    ([], GenOutcome.validationError "Site name, date, and heading are required.")
  else
    let r := processUploads env.baseUrl env.clock uploads 0
    match r.2 with
    | none => (r.1, GenOutcome.serverError)
    | some saved =>
      let iss := issueLink cfg resp site date heading rca_by description saved
      (r.1 ++ iss.1,
       GenOutcome.ok iss.2
         (renderDoc env.layout site date heading rca_by description saved iss.2)
         (secure_filename site ++ "_" ++ date ++ "_RCA.pdf"))

/-! ### Shared lemmas

The four entry points of the filename machinery are sealed so that
symbolic proofs do not unfold them; theorems that evaluate them on
concrete strings unseal them locally. -/

attribute [irreducible] is_image storedName allowed_file acceptedUpload

/-- The save effect of a one-file batch records exactly the stored
name built from the clock value at the batch index. -/
lemma processUploads_singleton_effect (baseUrl : String) (clock : Nat → String)
    (f : Upload) (k : Nat) (hacc : acceptedUpload f = true) :
    (processUploads baseUrl clock [f] k).1 =
      [Effect.save (storedName f.filename (clock k))] := by
  simp only [processUploads, hacc, if_true]
  rcases h : is_image (storedName f.filename (clock k)) with _ | b <;> simp [h]

/-- Appending on the left is cancellative for strings. -/
lemma append_left_cancel_str {a b c : String} (h : a ++ b = a ++ c) : b = c := by
  have h2 := congrArg String.data h
  simp only [String.data_append] at h2
  exact String.ext (List.append_cancel_left h2)

/-- Appending on the right is cancellative for strings. -/
lemma append_right_cancel_str {a b c : String} (h : a ++ c = b ++ c) : a = b := by
  have h2 := congrArg String.data h
  simp only [String.data_append] at h2
  exact String.ext (List.append_cancel_right h2)

/-- Number of uploads that pass the save-loop guard. -/
def acceptedCount (uploads : List Upload) : Nat :=
  (uploads.filter acceptedUpload).length

lemma acceptedCount_cons_pos {f : Upload} (fs : List Upload)
    (hf : acceptedUpload f = true) :
    acceptedCount (f :: fs) = acceptedCount fs + 1 := by
  simp [acceptedCount, List.filter_cons, hf]

lemma acceptedCount_cons_neg {f : Upload} (fs : List Upload)
    (hf : acceptedUpload f = false) :
    acceptedCount (f :: fs) = acceptedCount fs := by
  simp [acceptedCount, List.filter_cons, hf]

/-- A rejected upload contributes nothing to the save loop: the run is
identical to the run without it (in particular the clock indices of the
other files are unchanged, since the timestamp is only drawn for accepted
files). -/
lemma processUploads_skip (baseUrl : String) (clock : Nat → String) (f : Upload)
    (hf : acceptedUpload f = false) :
    ∀ (us₁ us₂ : List Upload) (k : Nat),
      processUploads baseUrl clock (us₁ ++ f :: us₂) k =
        processUploads baseUrl clock (us₁ ++ us₂) k := by
  intro us₁
  induction us₁ with
  | nil => intro us₂ k; simp [processUploads, hf]
  | cons g gs ih =>
    intro us₂ k
    by_cases hg : acceptedUpload g
    · simp only [List.cons_append, processUploads, hg, if_true, List.append_eq, ih]
    · simp only [List.cons_append, processUploads, hg, if_false]
      exact ih us₂ k

/-- The save loop only reads the clock at the indices of its accepted
files: two clocks agreeing there produce identical runs. -/
lemma processUploads_clock_congr (baseUrl : String) (c₁ c₂ : Nat → String) :
    ∀ (uploads : List Upload) (k : Nat),
      (∀ j, j < acceptedCount uploads → c₁ (k + j) = c₂ (k + j)) →
      processUploads baseUrl c₁ uploads k = processUploads baseUrl c₂ uploads k := by
  intro uploads
  induction uploads with
  | nil => intro k _; rfl
  | cons f fs ih =>
    intro k h
    by_cases hf : acceptedUpload f
    · have hk : c₁ k = c₂ k := by
        have h0 := h 0 (by rw [acceptedCount_cons_pos fs hf]; omega)
        simpa using h0
      have hrest : ∀ j, j < acceptedCount fs → c₁ (k + 1 + j) = c₂ (k + 1 + j) := by
        intro j hj
        have hj' : j + 1 < acceptedCount (f :: fs) := by
          rw [acceptedCount_cons_pos fs hf]; omega
        have := h (j + 1) hj'
        have harith : k + (j + 1) = k + 1 + j := by omega
        rwa [harith] at this
      simp only [processUploads, hf, if_true, hk, List.append_eq,
        ih (k + 1) hrest]
    · simp only [processUploads, hf, if_false]
      have hf' : acceptedUpload f = false := by simpa using hf
      exact ih k (fun j hj => h j (by rwa [acceptedCount_cons_neg fs hf']))

/-! ### C1 -/

/-- C1: whenever site name, date or heading is empty after trimming, the
handler returns the flash-and-redirect validation failure and performs no
side effect at all: the effect trace is empty (no file saved, no tracker
POST) and no document is produced. -/
theorem c1_validation_failure_no_side_effects
    (env : Env) (cfg : TrackerConfig) (resp : TrackerResponse)
    (form : FormData) (uploads : List Upload)
    (h : pyStrip form.site_name = "" ∨ pyStrip form.date = "" ∨
         pyStrip form.heading = "") :
    generate env cfg resp form uploads =
      ([], GenOutcome.validationError
        "Site name, date, and heading are required.") := by
  simp only [generate]
  rw [if_pos h]

/-- A concrete layout/decoder environment used by witnesses. -/
def sampleLayout : LayoutEnv :=
  ⟨true, fun _ => 0, fun _ => some (100, 100), fun _ => "decode error"⟩

/-- A concrete handler environment used by witnesses. -/
def sampleEnv : Env := ⟨"http://host/uploads/", fun k => toString k, sampleLayout⟩

/-- Witness for C1: a whitespace-only site name on an otherwise complete
submission with an attached file yields the validation failure and an
empty effect trace. -/
theorem c1_witness :
    generate sampleEnv ⟨some "tok", some "own/repo"⟩ ⟨201, some "u"⟩
        ⟨"  ", "2024-01-01", "Conveyor Jam", "d", "Doe"⟩ [⟨"a.png"⟩] =
      ([], GenOutcome.validationError
        "Site name, date, and heading are required.") :=
  c1_validation_failure_no_side_effects _ _ _ _ _ (Or.inl (by decide))

/-! ### C2 -/

/-- The three mutually exclusive shapes the ticket result can take,
quoted from the claim: the tracker's reported issue URL (configured,
status 200/201), the failure string embedding the status code
(configured, other status), or the fixed not-configured string (a
credential missing or empty, with no POST effect). -/
def ticketCases (cfg : TrackerConfig) (resp : TrackerResponse)
    (effects : List Effect) (s : String) : Prop :=
  ((truthy cfg.token && truthy cfg.repo) = true ∧
     (resp.status = 200 ∨ resp.status = 201) ∧ resp.html_url = some s) ∨
  ((truthy cfg.token && truthy cfg.repo) = true ∧
     ¬(resp.status = 200 ∨ resp.status = 201) ∧ s = failedMsg resp.status) ∨
  ((truthy cfg.token && truthy cfg.repo) = false ∧ s = NOT_CONFIGURED ∧
     effects = [])

/-- C2: provided the tracker reports an issue URL on a 200/201 response
(its documented interface), the ticket result is always a present string
falling in exactly one of the three `ticketCases` (their guards are
pairwise exclusive); in the not-configured case no network call is
made. -/
theorem c2_ticket_result_trichotomy
    (cfg : TrackerConfig) (resp : TrackerResponse)
    (site date heading rca_by description : String) (saved : List SavedFile)
    (hresp : resp.status = 200 ∨ resp.status = 201 → ∃ u, resp.html_url = some u) :
    ∃ s : String,
      (issueLink cfg resp site date heading rca_by description saved).2 = some s ∧
      ticketCases cfg resp
        (issueLink cfg resp site date heading rca_by description saved).1 s := by
  by_cases hb : (truthy cfg.token && truthy cfg.repo) = true
  · by_cases hs : resp.status = 200 ∨ resp.status = 201
    · obtain ⟨u, hu⟩ := hresp hs
      exact ⟨u, by simp [issueLink, hb, hs, hu], Or.inl ⟨hb, hs, hu⟩⟩
    · exact ⟨failedMsg resp.status, by simp [issueLink, hb, hs],
        Or.inr (Or.inl ⟨hb, hs, rfl⟩)⟩
  · have hb' : (truthy cfg.token && truthy cfg.repo) = false := by
      simpa using hb
    exact ⟨NOT_CONFIGURED, by simp [issueLink, hb'],
      Or.inr (Or.inr ⟨hb', rfl, by simp [issueLink, hb']⟩)⟩

/-- Witness for C2: with credentials configured and a 500 response the
result is the failure string for status 500. -/
theorem c2_witness :
    ∃ s : String,
      (issueLink ⟨some "tok", some "own/repo"⟩ ⟨500, none⟩
          "S" "D" "H" "R" "d" []).2 = some s ∧
      ticketCases ⟨some "tok", some "own/repo"⟩ ⟨500, none⟩
        (issueLink ⟨some "tok", some "own/repo"⟩ ⟨500, none⟩
          "S" "D" "H" "R" "d" []).1 s :=
  c2_ticket_result_trichotomy ⟨some "tok", some "own/repo"⟩ ⟨500, none⟩
    "S" "D" "H" "R" "d" [] (fun h => absurd h (by decide))

/-! ### C5 -/

/-- C5: an uploaded file whose name is empty, has no extension, or whose
extension is not allow-listed is completely inert: the handler's whole
run (effects, outcome, document) is identical to the run on the same
request without that file — it is not saved, appears nowhere in the
report, and surfaces no error. -/
theorem c5_disallowed_upload_is_inert
    (env : Env) (cfg : TrackerConfig) (resp : TrackerResponse) (form : FormData)
    (us₁ us₂ : List Upload) (f : Upload)
    (h : f.filename = "" ∨ allowed_file f.filename = false) :
    generate env cfg resp form (us₁ ++ f :: us₂) =
      generate env cfg resp form (us₁ ++ us₂) := by
  have hf : acceptedUpload f = false := by
    cases h with
    | inl h => simp [acceptedUpload, h]
    | inr h => simp [acceptedUpload, h]
  simp only [generate, processUploads_skip env.baseUrl env.clock f hf]

unseal is_image storedName allowed_file acceptedUpload in
/-- Witness for C5: inserting `evil.exe` between two accepted files
changes nothing about the run. -/
theorem c5_witness :
    generate sampleEnv ⟨none, none⟩ ⟨0, none⟩ ⟨"S", "D", "H", "", ""⟩
        [⟨"a.png"⟩, ⟨"evil.exe"⟩, ⟨"b.txt"⟩] =
      generate sampleEnv ⟨none, none⟩ ⟨0, none⟩ ⟨"S", "D", "H", "", ""⟩
        [⟨"a.png"⟩, ⟨"b.txt"⟩] :=
  c5_disallowed_upload_is_inert _ _ _ _ [⟨"a.png"⟩] [⟨"b.txt"⟩] ⟨"evil.exe"⟩
    (Or.inr (by decide))

/-! ### C6 -/

unseal is_image storedName allowed_file acceptedUpload in
/-- C6: the stored filename is exactly the sanitised base name, an
underscore, the injected UTC timestamp token, and then the original
extension (so the token sits immediately before the extension); two
uploads sharing the same original name but saved at different timestamp
tokens always get distinct stored names; and the save effect of an
accepted upload in a batch records precisely that stored name. -/
theorem c6_stored_name_format_and_uniqueness (fname ts₁ ts₂ : String) :
    storedName fname ts₁ =
      (splitext (secure_filename fname)).1 ++ "_" ++ ts₁ ++
        (splitext (secure_filename fname)).2 ∧
    (ts₁ ≠ ts₂ → storedName fname ts₁ ≠ storedName fname ts₂) ∧
    (∀ (baseUrl : String) (clock : Nat → String) (f : Upload) (k : Nat),
      acceptedUpload f = true →
      (processUploads baseUrl clock [f] k).1 =
        [Effect.save (storedName f.filename (clock k))]) := by
  refine ⟨rfl, fun hne heq => hne ?_, ?_⟩
  · have heq' :
        ((splitext (secure_filename fname)).1 ++ "_" ++ ts₁) ++
            (splitext (secure_filename fname)).2 =
          ((splitext (secure_filename fname)).1 ++ "_" ++ ts₂) ++
            (splitext (secure_filename fname)).2 := heq
    exact append_left_cancel_str (append_right_cancel_str heq')
  · exact processUploads_singleton_effect

unseal is_image storedName allowed_file acceptedUpload in
/-- Witness for C6: two saves of `photo.png` whose microsecond timestamp
tokens differ in the last digit store under distinct names. -/
theorem c6_witness :
    storedName "photo.png" "20240101000000000000" ≠
      storedName "photo.png" "20240101000000000001" :=
  (c6_stored_name_format_and_uniqueness "photo.png"
    "20240101000000000000" "20240101000000000001").2.1 (by decide)

/-! ### C7 -/

/-- The issue title demanded by the spec:
`"{site_name} - {date} - {heading}"`. -/
def specIssueTitle (site date heading : String) : String :=
  site ++ " - " ++ date ++ " - " ++ heading

/-- The markdown rendering of one attachment demanded by the spec:
an image embed for image attachments, a link line otherwise. -/
def specAttachmentMarkdown (sf : SavedFile) : String :=
  if sf.is_img then "![" ++ sf.name ++ "](" ++ sf.url ++ ")"
  else "- [" ++ sf.name ++ "](" ++ sf.url ++ ")"

/-- The markdown body demanded by the spec: site, date, heading, author,
a description section and an attachments section rendering each saved
file with `specAttachmentMarkdown`, in saved-file order. -/
def specIssueBody (site date heading rca_by description : String)
    (saved : List SavedFile) : String :=
  String.intercalate "\n\n"
    (["**Site:** " ++ site,
      "**Date:** " ++ date,
      "**RCA Heading:** " ++ heading,
      "**RCA By:** " ++ rca_by,
      "\n**Description:**\n",
      description,
      "\n**Attachments:**\n"] ++ saved.map specAttachmentMarkdown)

/-- C7: when both tracker credentials are configured, exactly one tracker
POST is made and it carries the spec's title and markdown body. -/
theorem c7_issue_title_and_body
    (cfg : TrackerConfig) (resp : TrackerResponse)
    (site date heading rca_by description : String) (saved : List SavedFile)
    (htok : truthy cfg.token = true) (hrepo : truthy cfg.repo = true) :
    (issueLink cfg resp site date heading rca_by description saved).1 =
      [Effect.trackerPost (specIssueTitle site date heading)
        (specIssueBody site date heading rca_by description saved)] := by
  have hline : attachmentLine = specAttachmentMarkdown := funext fun _ => rfl
  simp [issueLink, htok, hrepo, issueTitle, specIssueTitle, issueBody,
    specIssueBody, hline]

/-- Witness for C7 on the spec's example scenario (one image, one log). -/
theorem c7_witness :
    (issueLink ⟨some "tok", some "own/repo"⟩ ⟨500, none⟩
        "Plant A" "2024-01-01" "Conveyor Jam" "J. Doe" "Belt stopped at 10am"
        [⟨"photo_1.jpg", true, "u1"⟩, ⟨"log_2.txt", false, "u2"⟩]).1 =
      [Effect.trackerPost (specIssueTitle "Plant A" "2024-01-01" "Conveyor Jam")
        (specIssueBody "Plant A" "2024-01-01" "Conveyor Jam" "J. Doe"
          "Belt stopped at 10am"
          [⟨"photo_1.jpg", true, "u1"⟩, ⟨"log_2.txt", false, "u2"⟩])] :=
  c7_issue_title_and_body _ _ _ _ _ _ _ _ (by decide) (by decide)

/-! ### C9 -/

/-- C9: the handler is a deterministic function of the submission and the
injected time.  Two runs whose clocks agree on the timestamps actually
consumed (one per accepted file) produce identical effect traces and
byte-identical documents; in particular re-rendering the same submission
with the same fixed timestamps reproduces the document exactly. -/
theorem c9_deterministic_given_fixed_time
    (env : Env) (c₂ : Nat → String) (cfg : TrackerConfig)
    (resp : TrackerResponse) (form : FormData) (uploads : List Upload)
    (h : ∀ k, k < acceptedCount uploads → env.clock k = c₂ k) :
    generate env cfg resp form uploads =
      generate { env with clock := c₂ } cfg resp form uploads := by
  simp only [generate]
  rw [processUploads_clock_congr env.baseUrl env.clock c₂ uploads 0
    (by intro j hj; simpa using h j hj)]

unseal is_image storedName allowed_file acceptedUpload in
/-- Witness for C9: a clock altered beyond the consumed prefix leaves the
run of a one-file submission unchanged. -/
theorem c9_witness :
    generate sampleEnv ⟨none, none⟩ ⟨0, none⟩ ⟨"S", "D", "H", "", ""⟩ [⟨"a.png"⟩] =
      generate { sampleEnv with clock := fun k => if k < 1 then toString k else "Z" }
        ⟨none, none⟩ ⟨0, none⟩ ⟨"S", "D", "H", "", ""⟩ [⟨"a.png"⟩] :=
  c9_deterministic_given_fixed_time sampleEnv
    (fun k => if k < 1 then toString k else "Z") ⟨none, none⟩ ⟨0, none⟩
    ⟨"S", "D", "H", "", ""⟩ [⟨"a.png"⟩] (by decide)

/-! ### C10 -/

/-- A handler environment with a fixed injected timestamp. -/
def fixedClockEnv : Env :=
  ⟨"http://host/uploads/", fun _ => "20240101000000000000", sampleLayout⟩

unseal is_image storedName allowed_file acceptedUpload in
/-- C10: the upload `.png` passes the allow-list filter, sanitisation
strips its leading dot so the stored name `png_<timestamp>` has no dot at
all, and the image classification of that stored name then fails
(Python's `IndexError` on `rsplit(".", 1)[1]`), aborting the whole
request with a server error after the file was already saved: the effect
trace contains the completed save. -/
theorem c10_dotfile_crash_after_save :
    allowed_file ".png" = true ∧
    secure_filename ".png" = "png" ∧
    is_image (storedName ".png" "20240101000000000000") = none ∧
    generate fixedClockEnv ⟨none, none⟩ ⟨0, none⟩
        ⟨"Plant A", "2024-01-01", "Conveyor Jam", "", ""⟩ [⟨".png"⟩] =
      ([Effect.save "png_20240101000000000000"], GenOutcome.serverError) := by
  decide

/-! ### Observation functions on the rendered document -/

/-- The string drawn by an operation, if any. -/
def opString : Op → Option String
  | Op.drawString _ _ s => some s
  | _ => none

/-- All strings drawn by an operation stream, in drawing order. -/
def drawnStrings (ops : List Op) : List String := ops.filterMap opString

/-- The path of an embedded (non-logo) image drawn by an operation. -/
def embeddedImagePath : Op → Option String
  | Op.drawImage p _ _ _ _ =>
    if p = "static/AddverbImage.jpeg" then none else some p
  | _ => none

/-- An operation drawing below the bottom margin of the page (a clipped
element in the claim's sense). -/
def belowBottomMargin : Op → Bool
  | Op.drawString _ y _ => decide (y < margin)
  | Op.drawImage _ _ y _ _ => decide (y < margin)
  | _ => false

/-- The strings the attachment-list section draws: the header and, per
non-image attachment in order, its `- name` line and its URL line. -/
def attachListStrings (l : List (String × String)) : List String :=
  if l.isEmpty then []
  else "Attachments:" :: (l.map (fun p => ["- " ++ p.1, p.2])).flatten

/-- The total scaled height of the image attachments that decode
(the claim's cumulative scaled height). -/
def scaledHeight (env : LayoutEnv) (sf : SavedFile) : ℚ :=
  if sf.is_img then
    match env.imgSize (uploadsPath sf.name) with
    | some wh => (scaledSize wh.1 wh.2).2
    | none => 0
  else 0

/-- Sum of `scaledHeight` over a saved-file list. -/
def sumScaled (env : LayoutEnv) (saved : List SavedFile) : ℚ :=
  (saved.map (scaledHeight env)).sum

/-! ### Layout lemmas -/

lemma newPage_not_mem_attachEntries :
    ∀ (l : List (String × String)) (y : ℚ),
      Op.newPage ∉ (drawAttachEntries y l).1 := by
  intro l
  induction l with
  | nil => intro y; simp [drawAttachEntries]
  | cons p rest ih => intro y; simp [drawAttachEntries, attachEntryOps, ih]

/-! ### C8 -/

/-- C8: the three page-break checks use exactly the claimed thresholds —
before an image, break iff the cursor minus the scaled image height is
below `margin + 80`; before the non-empty attachment list, iff the cursor
is below `margin + 80`; before the issue link, iff below `margin + 60` —
and every break emits a new page, redraws the logo, and restarts drawing
from the fixed top offset `freshY = pageHeight - margin - 80`. -/
theorem c8_page_break_thresholds :
    (∀ (env : LayoutEnv) (y : ℚ) (fname : String) (w h : ℚ),
      env.imgSize (uploadsPath fname) = some (w, h) →
      (Op.newPage ∈ (drawImageStep env y fname).1 ↔
        y - (scaledSize w h).2 < margin + 80)) ∧
    (∀ (env : LayoutEnv) (l : List (String × String)) (y : ℚ), l ≠ [] →
      (Op.newPage ∈ (drawAttachList env l y).1 ↔ y < margin + 80)) ∧
    (∀ (env : LayoutEnv) (link : Option String) (y : ℚ),
      (Op.newPage ∈ (drawIssue env link y).1 ↔ y < margin + 60)) ∧
    (∀ env : LayoutEnv, env.logoExists = true →
      pageBreakOps env = [Op.newPage, logoOp]) ∧
    freshY = pageHeight - margin - 80 ∧
    (∀ (env : LayoutEnv) (y : ℚ) (fname : String) (w h : ℚ),
      env.imgSize (uploadsPath fname) = some (w, h) →
      y - (scaledSize w h).2 < margin + 80 →
      drawImageStep env y fname =
        (pageBreakOps env ++
          [Op.drawImage (uploadsPath fname) margin
            (freshY - (scaledSize w h).2) (scaledSize w h).1 (scaledSize w h).2],
         freshY - ((scaledSize w h).2 + 12))) ∧
    (∀ (env : LayoutEnv) (l : List (String × String)) (y : ℚ),
      l ≠ [] → y < margin + 80 →
      drawAttachList env l y =
        (pageBreakOps env ++
          [Op.setFont "Helvetica-Bold" 10,
           Op.drawString margin freshY "Attachments:",
           Op.setFont "Helvetica" 9] ++ (drawAttachEntries (freshY - 14) l).1,
         (drawAttachEntries (freshY - 14) l).2)) ∧
    (∀ (env : LayoutEnv) (link : Option String) (y : ℚ), y < margin + 60 →
      drawIssue env link y =
        (pageBreakOps env ++
          [Op.setFont "Helvetica-Bold" 10,
           Op.drawString margin freshY "GitHub Issue Link:",
           Op.setFont "Helvetica" 9,
           Op.drawString margin (freshY - 14) (pyStr link)],
         freshY - 40)) := by
  refine ⟨?_, ?_, ?_, ?_, rfl, ?_, ?_, ?_⟩
  · intro env y fname w h himg
    by_cases hc : y - (scaledSize w h).2 < margin + 80 <;>
      simp [drawImageStep, himg, hc, pageBreakOps, logoOps]
  · intro env l y hl
    have hl' : l.isEmpty = false := by
      cases l with
      | nil => exact absurd rfl hl
      | cons p rest => rfl
    by_cases hc : y < margin + 80 <;>
      simp [drawAttachList, hl', hc, pageBreakOps, logoOps,
        newPage_not_mem_attachEntries]
  · intro env link y
    by_cases hc : y < margin + 60 <;>
      simp [drawIssue, hc, pageBreakOps, logoOps]
  · intro env hlogo
    simp [pageBreakOps, logoOps, hlogo]
  · intro env y fname w h himg hc
    simp [drawImageStep, himg, hc]
  · intro env l y hl hc
    have hl' : l.isEmpty = false := by
      cases l with
      | nil => exact absurd rfl hl
      | cons p rest => rfl
    simp [drawAttachList, hl', hc]
  · intro env link y hc
    simp [drawIssue, hc]

/-- Witness for C8: at cursor height 0 the issue-link section breaks the
page; at cursor height 200 it does not. -/
theorem c8_witness :
    Op.newPage ∈ (drawIssue sampleLayout (some "url") 0).1 ∧
    Op.newPage ∉ (drawIssue sampleLayout (some "url") 200).1 :=
  ⟨(c8_page_break_thresholds.2.2.1 sampleLayout (some "url") 0).mpr
      (by norm_num [margin]),
   fun hmem =>
    absurd ((c8_page_break_thresholds.2.2.1 sampleLayout (some "url") 200).mp hmem)
      (by norm_num [margin])⟩

/-! ### Section lemmas for the round-trip claim -/

@[simp] lemma opString_newPage : opString Op.newPage = none := rfl

@[simp] lemma opString_setFont (f : String) (s : ℚ) :
    opString (Op.setFont f s) = none := rfl

@[simp] lemma opString_drawString (x y : ℚ) (s : String) :
    opString (Op.drawString x y s) = some s := rfl

@[simp] lemma opString_drawImage (p : String) (x y w h : ℚ) :
    opString (Op.drawImage p x y w h) = none := rfl

@[simp] lemma embeddedImagePath_newPage : embeddedImagePath Op.newPage = none := rfl

@[simp] lemma embeddedImagePath_setFont (f : String) (s : ℚ) :
    embeddedImagePath (Op.setFont f s) = none := rfl

@[simp] lemma embeddedImagePath_drawString (x y : ℚ) (s : String) :
    embeddedImagePath (Op.drawString x y s) = none := rfl

@[simp] lemma opString_logoOp : opString logoOp = none := rfl

@[simp] lemma embeddedImagePath_logoOp : embeddedImagePath logoOp = none := by
  simp [embeddedImagePath, logoOp]

@[simp] lemma drawnStrings_nil : drawnStrings [] = [] := rfl

@[simp] lemma drawnStrings_append (a b : List Op) :
    drawnStrings (a ++ b) = drawnStrings a ++ drawnStrings b :=
  List.filterMap_append a b opString

@[simp] lemma drawnStrings_cons (op : Op) (ops : List Op) :
    drawnStrings (op :: ops) =
      (opString op).toList ++ drawnStrings ops := by
  rcases h : opString op with _ | s <;>
    simp [drawnStrings, List.filterMap_cons, h]

lemma filterMap_const_none {α β : Type} (l : List α) :
    l.filterMap (fun _ => (none : Option β)) = [] := by
  induction l with
  | nil => rfl
  | cons a l ih => simp [List.filterMap_cons, ih]

lemma uploadsPath_ne_logo (n : String) :
    uploadsPath n ≠ "static/AddverbImage.jpeg" := by
  intro h
  have h2 := congrArg String.data h
  simp only [uploadsPath, String.data_append] at h2
  simpa using congrArg List.head? h2

@[simp] lemma embeddedImagePath_pageBreak (env : LayoutEnv) :
    (pageBreakOps env).filterMap embeddedImagePath = [] := by
  cases h : env.logoExists <;>
    simp [pageBreakOps, logoOps, h, List.filterMap_cons]

@[simp] lemma drawnStrings_pageBreak (env : LayoutEnv) :
    drawnStrings (pageBreakOps env) = [] := by
  cases h : env.logoExists <;> simp [pageBreakOps, logoOps, h]

lemma embeddedImagePath_headerOps (env : LayoutEnv)
    (site date heading rca_by : String) :
    (headerOps env site date heading rca_by).filterMap embeddedImagePath = [] := by
  cases h : env.logoExists <;>
    simp [headerOps, logoOps, h, metaLineOps, List.filterMap_cons]

lemma drawnStrings_headerOps (env : LayoutEnv) (site date heading rca_by : String) :
    drawnStrings (headerOps env site date heading rca_by) =
      ["RCA Report", "Site Name:", site, "Date:", date, "Heading:", heading,
       "RCA By:", rca_by] := by
  cases h : env.logoExists <;>
    simp [headerOps, logoOps, h, metaLineOps]

lemma drawnStrings_descOps (ls : List String) (y : ℚ) :
    drawnStrings (descOps y ls) = ls := by
  simp only [drawnStrings, descOps, List.filterMap_map]
  have h1 : (opString ∘ fun il : Nat × String =>
      Op.drawString margin (y - 12 * (il.1 : ℚ)) il.2) = some ∘ Prod.snd := rfl
  rw [h1, List.filterMap_eq_map, List.enum, List.enumFrom_map_snd]

lemma embeddedImagePath_descOps (ls : List String) (y : ℚ) :
    (descOps y ls).filterMap embeddedImagePath = [] := by
  simp only [descOps, List.filterMap_map]
  have h1 : (embeddedImagePath ∘ fun il : Nat × String =>
      Op.drawString margin (y - 12 * (il.1 : ℚ)) il.2) =
        fun _ => (none : Option String) := rfl
  rw [h1, filterMap_const_none]

lemma drawnStrings_description (env : LayoutEnv) (d : String) (y : ℚ) :
    drawnStrings (drawDescription env d y).1 =
      "Description:" :: descLines env.wf d := by
  simp only [drawDescription]
  rw [drawnStrings_append, drawnStrings_descOps]
  simp

lemma embeddedImagePath_description (env : LayoutEnv) (d : String) (y : ℚ) :
    (drawDescription env d y).1.filterMap embeddedImagePath = [] := by
  simp only [drawDescription]
  rw [List.filterMap_append, embeddedImagePath_descOps]
  simp [List.filterMap_cons]

lemma embeddedImagePath_imageStep (env : LayoutEnv) (y : ℚ) (f : String)
    (wh : ℚ × ℚ) (hwh : env.imgSize (uploadsPath f) = some wh) :
    (drawImageStep env y f).1.filterMap embeddedImagePath = [uploadsPath f] := by
  by_cases hc : y - (scaledSize wh.1 wh.2).2 < margin + 80 <;>
    simp [drawImageStep, hwh, hc, List.filterMap_cons,
      embeddedImagePath, uploadsPath_ne_logo f]

lemma drawnStrings_imageStep (env : LayoutEnv) (y : ℚ) (f : String)
    (wh : ℚ × ℚ) (hwh : env.imgSize (uploadsPath f) = some wh) :
    drawnStrings (drawImageStep env y f).1 = [] := by
  by_cases hc : y - (scaledSize wh.1 wh.2).2 < margin + 80 <;>
    simp [drawImageStep, hwh, hc]

lemma embeddedImagePath_drawImages (env : LayoutEnv) :
    ∀ (saved : List SavedFile) (y : ℚ),
      (∀ sf ∈ saved, sf.is_img = true →
        (env.imgSize (uploadsPath sf.name)).isSome = true) →
      (drawImages env y saved).1.filterMap embeddedImagePath =
        (saved.filter (fun sf => sf.is_img)).map (fun sf => uploadsPath sf.name) := by
  intro saved
  induction saved with
  | nil => intro y _; simp [drawImages]
  | cons sf rest ih =>
    intro y hdec
    have hrest : ∀ sf ∈ rest, sf.is_img = true →
        (env.imgSize (uploadsPath sf.name)).isSome = true :=
      fun x hx => hdec x (List.mem_cons_of_mem sf hx)
    by_cases hi : sf.is_img
    · obtain ⟨wh, hwh⟩ := Option.isSome_iff_exists.mp
        (hdec sf (List.mem_cons_self sf rest) hi)
      simp [drawImages, hi, List.filter_cons,
        embeddedImagePath_imageStep env y sf.name wh hwh, ih _ hrest]
    · have hi' : sf.is_img = false := by simpa using hi
      simp [drawImages, hi', List.filter_cons, ih _ hrest]

lemma drawnStrings_drawImages (env : LayoutEnv) :
    ∀ (saved : List SavedFile) (y : ℚ),
      (∀ sf ∈ saved, sf.is_img = true →
        (env.imgSize (uploadsPath sf.name)).isSome = true) →
      drawnStrings (drawImages env y saved).1 = [] := by
  intro saved
  induction saved with
  | nil => intro y _; simp [drawImages]
  | cons sf rest ih =>
    intro y hdec
    have hrest : ∀ sf ∈ rest, sf.is_img = true →
        (env.imgSize (uploadsPath sf.name)).isSome = true :=
      fun x hx => hdec x (List.mem_cons_of_mem sf hx)
    by_cases hi : sf.is_img
    · obtain ⟨wh, hwh⟩ := Option.isSome_iff_exists.mp
        (hdec sf (List.mem_cons_self sf rest) hi)
      simp [drawImages, hi, drawnStrings_imageStep env y sf.name wh hwh, ih _ hrest]
    · have hi' : sf.is_img = false := by simpa using hi
      simp [drawImages, hi', ih _ hrest]

lemma drawnStrings_attachEntries :
    ∀ (l : List (String × String)) (y : ℚ),
      drawnStrings (drawAttachEntries y l).1 =
        (l.map (fun p => ["- " ++ p.1, p.2])).flatten := by
  intro l
  induction l with
  | nil => intro y; simp [drawAttachEntries]
  | cons p rest ih =>
    intro y
    simp only [drawAttachEntries]
    rw [drawnStrings_append, ih]
    simp [attachEntryOps]

lemma embeddedImagePath_attachEntries :
    ∀ (l : List (String × String)) (y : ℚ),
      (drawAttachEntries y l).1.filterMap embeddedImagePath = [] := by
  intro l
  induction l with
  | nil => intro y; simp [drawAttachEntries]
  | cons p rest ih =>
    intro y
    simp only [drawAttachEntries]
    rw [List.filterMap_append, ih]
    simp [attachEntryOps, List.filterMap_cons]

lemma drawnStrings_attachList (env : LayoutEnv)
    (l : List (String × String)) (y : ℚ) :
    drawnStrings (drawAttachList env l y).1 = attachListStrings l := by
  by_cases he : l.isEmpty
  · simp [drawAttachList, he, attachListStrings]
  · have he' : l.isEmpty = false := by simpa using he
    by_cases hc : y < margin + 80 <;>
      simp [drawAttachList, he', hc, attachListStrings,
        drawnStrings_attachEntries]

lemma embeddedImagePath_attachList (env : LayoutEnv)
    (l : List (String × String)) (y : ℚ) :
    (drawAttachList env l y).1.filterMap embeddedImagePath = [] := by
  by_cases he : l.isEmpty
  · simp [drawAttachList, he]
  · have he' : l.isEmpty = false := by simpa using he
    by_cases hc : y < margin + 80 <;>
      simp [drawAttachList, he', hc, List.filterMap_cons,
        embeddedImagePath_attachEntries]

lemma drawnStrings_issue (env : LayoutEnv) (link : Option String) (y : ℚ) :
    drawnStrings (drawIssue env link y).1 =
      ["GitHub Issue Link:", pyStr link] := by
  by_cases hc : y < margin + 60 <;> simp [drawIssue, hc]

lemma embeddedImagePath_issue (env : LayoutEnv) (link : Option String) (y : ℚ) :
    (drawIssue env link y).1.filterMap embeddedImagePath = [] := by
  by_cases hc : y < margin + 60 <;>
    simp [drawIssue, hc, List.filterMap_cons]

/-! ### C4 -/

/-- C4 as frozen is false on the code: an image attachment whose stored
file fails to decode (`PIL.Image.open` raises) is not embedded in the
report — the source draws an inline error notice instead
(src/app.py lines 187-190).  Concretely, a request with the saved image
`photo.png` and a decoder that rejects it produces a document with no
embedded image at all, while the claim demands exactly one. -/
theorem c4_counterexample :
    ((renderOps ⟨true, fun _ => 0, fun _ => none, fun _ => "cannot identify image file"⟩
        "Plant A" "2024-01-01" "Jam" "Doe" ""
        [⟨"photo.png", true, "u"⟩] (some "L")).filterMap embeddedImagePath = []) ∧
    (([⟨"photo.png", true, "u"⟩] : List SavedFile).filter
        (fun sf => sf.is_img)).map (fun sf => uploadsPath sf.name) =
      ["uploads/photo.png"] := by
  constructor
  · simp only [renderOps, List.filterMap_append, embeddedImagePath_headerOps,
      embeddedImagePath_description, embeddedImagePath_attachList,
      embeddedImagePath_issue, List.append_nil, List.nil_append]
    simp [drawImages, drawImageStep, embeddedImagePath]
  · rfl

/-- C4 (amended): in a request whose saved image attachments all decode,
the embedded images of the document are exactly the image attachments, in
saved order (so each appears once and nowhere else); the attachment-list
section draws exactly the `- name` and URL lines of the non-image
attachments, once each, in saved order; and every other string drawn in
the document is one of the fixed labels, the form-field values, the
wrapped description lines, or the issue-link text — so a stored
attachment name cannot appear anywhere else in the document (short of the
user typing it into a form field). -/
theorem c4_attachment_round_trip (env : LayoutEnv)
    (site date heading rca_by description : String)
    (saved : List SavedFile) (link : Option String)
    (hdec : ∀ sf ∈ saved, sf.is_img = true →
      (env.imgSize (uploadsPath sf.name)).isSome = true) :
    (renderOps env site date heading rca_by description saved link).filterMap
        embeddedImagePath =
      (saved.filter (fun sf => sf.is_img)).map (fun sf => uploadsPath sf.name) ∧
    drawnStrings (renderOps env site date heading rca_by description saved link) =
      ["RCA Report", "Site Name:", site, "Date:", date, "Heading:", heading,
       "RCA By:", rca_by, "Description:"] ++ descLines env.wf description ++
      attachListStrings (nonImagesOf saved) ++
      ["GitHub Issue Link:", pyStr link] := by
  constructor
  · simp only [renderOps, List.filterMap_append, embeddedImagePath_headerOps,
      embeddedImagePath_description, embeddedImagePath_attachList,
      embeddedImagePath_issue, embeddedImagePath_drawImages env saved _ hdec,
      List.append_nil, List.nil_append]
    simp [embeddedImagePath]
  · simp only [renderOps, drawnStrings_append, drawnStrings_headerOps,
      drawnStrings_description, drawnStrings_attachList, drawnStrings_issue,
      drawnStrings_drawImages env saved _ hdec,
      List.append_nil, List.nil_append]
    simp [drawnStrings, opString]

/-- Witness for the amended C4 on a request with one decodable image and
one log file. -/
theorem c4_witness :
    (renderOps sampleLayout "S" "D" "H" "R" ""
        [⟨"img_1.png", true, "u1"⟩, ⟨"log_2.txt", false, "u2"⟩]
        (some "L")).filterMap embeddedImagePath =
      (([⟨"img_1.png", true, "u1"⟩, ⟨"log_2.txt", false, "u2"⟩] :
          List SavedFile).filter (fun sf => sf.is_img)).map
        (fun sf => uploadsPath sf.name) ∧
    drawnStrings (renderOps sampleLayout "S" "D" "H" "R" ""
        [⟨"img_1.png", true, "u1"⟩, ⟨"log_2.txt", false, "u2"⟩] (some "L")) =
      ["RCA Report", "Site Name:", "S", "Date:", "D", "Heading:", "H",
       "RCA By:", "R", "Description:"] ++ descLines sampleLayout.wf "" ++
      attachListStrings (nonImagesOf
        [⟨"img_1.png", true, "u1"⟩, ⟨"log_2.txt", false, "u2"⟩]) ++
      ["GitHub Issue Link:", pyStr (some "L")] :=
  c4_attachment_round_trip sampleLayout "S" "D" "H" "R" "" _ (some "L") (by decide)

/-! ### Page-structure machinery for the pagination claim -/

/-- Adjacent-pair discipline of the canvas stream: a page break is
immediately followed by the logo stamp. -/
def npOk (x y : Op) : Prop := x = Op.newPage → y = logoOp

/-- Streams without any `newPage` trivially satisfy `npOk`. -/
lemma chain_npOk_of_not_mem : ∀ (ops : List Op), Op.newPage ∉ ops →
    List.Chain' npOk ops
  | [], _ => List.chain'_nil
  | [_], _ => List.chain'_singleton _
  | a :: b :: rest, h => by
    rw [List.chain'_cons]
    refine ⟨fun ha => absurd (ha ▸ List.mem_cons_self a (b :: rest)) h, ?_⟩
    exact chain_npOk_of_not_mem (b :: rest)
      (fun hb => h (List.mem_cons_of_mem a hb))

/-- A well-formed partial stream: breaks are followed by the logo and the
stream does not end in a dangling break. -/
def GoodOps (ops : List Op) : Prop :=
  List.Chain' npOk ops ∧ ops.getLast? ≠ some Op.newPage

lemma goodOps_of_not_mem {ops : List Op} (h : Op.newPage ∉ ops) :
    GoodOps ops := by
  refine ⟨chain_npOk_of_not_mem ops h, fun hlast => h ?_⟩
  cases ops with
  | nil => simp at hlast
  | cons a l => exact List.mem_of_getLast?_eq_some hlast

lemma goodOps_nil : GoodOps [] := goodOps_of_not_mem (by simp)

lemma goodOps_append {a b : List Op} (ha : GoodOps a) (hb : GoodOps b) :
    GoodOps (a ++ b) := by
  constructor
  · rw [List.chain'_append]
    refine ⟨ha.1, hb.1, fun x hx y hy hxnp => ?_⟩
    exact absurd (hxnp ▸ hx) ha.2
  · cases hbe : b with
    | nil => simpa [hbe] using ha.2
    | cons c l =>
      have hne : (c :: l : List Op) ≠ [] := by simp
      rw [List.getLast?_append_of_ne_nil a hne]
      exact hbe ▸ hb.2

lemma goodOps_break (env : LayoutEnv) (hlogo : env.logoExists = true)
    {rest : List Op} (hnp : Op.newPage ∉ rest) (_hne : rest ≠ []) :
    GoodOps (pageBreakOps env ++ rest) := by
  have hpb : pageBreakOps env = [Op.newPage, logoOp] := by
    simp [pageBreakOps, logoOps, hlogo]
  rw [hpb]
  constructor
  · show List.Chain' npOk (Op.newPage :: logoOp :: rest)
    rw [List.chain'_cons]
    exact ⟨fun _ => rfl,
      chain_npOk_of_not_mem (logoOp :: rest)
        (by simp [logoOp]; intro h; exact hnp h)⟩
  · show (Op.newPage :: logoOp :: rest).getLast? ≠ some Op.newPage
    rw [List.getLast?_cons_cons]
    intro hlast
    have : Op.newPage ∈ logoOp :: rest := List.mem_of_getLast?_eq_some hlast
    rcases List.mem_cons.mp this with h | h
    · exact absurd h.symm (by simp [logoOp])
    · exact hnp h

/-- Page extraction: every segment produced by `pagesOfAux` from a
well-formed stream whose fresh pages always open with the logo begins
with the logo stamp. -/
lemma pagesOfAux_logo : ∀ (ops cur : List Op),
    List.Chain' npOk ops →
    (cur = [] → ops.head? = some logoOp) →
    (cur ≠ [] → cur.head? = some logoOp) →
    ∀ p ∈ pagesOfAux ops cur, p.head? = some logoOp := by
  intro ops
  induction ops with
  | nil =>
    intro cur _ _ hcur p hp
    by_cases hc : cur = []
    · simp [pagesOfAux, hc] at hp
    · have : cur.isEmpty = false := by simpa [List.isEmpty_iff] using hc
      simp [pagesOfAux, this] at hp
      exact hp ▸ hcur hc
  | cons op rest ih =>
    intro cur hchain hfresh hcur p hp
    cases op with
    | newPage =>
      have hcne : cur ≠ [] := by
        intro hc
        have := hfresh hc
        simp at this
        exact absurd this.symm (by simp [logoOp])
      simp only [pagesOfAux] at hp
      rcases List.mem_cons.mp hp with h | h
      · exact h ▸ hcur hcne
      · refine ih [] (List.Chain'.tail hchain) ?_ (fun hne => absurd rfl hne) p h
        intro _
        cases rest with
        | nil => exact absurd h (by simp [pagesOfAux])
        | cons c l =>
          have := List.chain'_cons.mp hchain
          simp [this.1 rfl]
    | setFont f s =>
      simp only [pagesOfAux] at hp
      refine ih (cur ++ [Op.setFont f s]) (List.Chain'.tail hchain)
        (fun hne => by simp at hne) ?_ p hp
      intro _
      by_cases hc : cur = []
      · have := hfresh hc
        simp at this
        simp [hc, this]
      · rw [List.head?_append_of_ne_nil _ hc]
        exact hcur hc
    | drawString x y s =>
      simp only [pagesOfAux] at hp
      refine ih (cur ++ [Op.drawString x y s]) (List.Chain'.tail hchain)
        (fun hne => by simp at hne) ?_ p hp
      intro _
      by_cases hc : cur = []
      · have := hfresh hc
        simp at this
        simp [hc, this]
      · rw [List.head?_append_of_ne_nil _ hc]
        exact hcur hc
    | drawImage pth x y w h =>
      simp only [pagesOfAux] at hp
      refine ih (cur ++ [Op.drawImage pth x y w h]) (List.Chain'.tail hchain)
        (fun hne => by simp at hne) ?_ p hp
      intro _
      by_cases hc : cur = []
      · have := hfresh hc
        simp at this
        simp [hc, this]
      · rw [List.head?_append_of_ne_nil _ hc]
        exact hcur hc

/-- Each `newPage` marker yields one finished page. -/
lemma count_le_pagesOfAux : ∀ (ops cur : List Op),
    ops.count Op.newPage ≤ (pagesOfAux ops cur).length := by
  intro ops
  induction ops with
  | nil => intro cur; simp
  | cons op rest ih =>
    intro cur
    cases op with
    | newPage =>
      simp only [pagesOfAux, List.length_cons]
      have := ih ([] : List Op)
      have hcount : (Op.newPage :: rest).count Op.newPage =
          rest.count Op.newPage + 1 := by
        simp [List.count_cons]
      omega
    | setFont f s =>
      simp only [pagesOfAux]
      have hcount : (Op.setFont f s :: rest).count Op.newPage =
          rest.count Op.newPage := by
        simp [List.count_cons]
      rw [hcount]; exact ih _
    | drawString x y s =>
      simp only [pagesOfAux]
      have hcount : (Op.drawString x y s :: rest).count Op.newPage =
          rest.count Op.newPage := by
        simp [List.count_cons]
      rw [hcount]; exact ih _
    | drawImage pth x y w h =>
      simp only [pagesOfAux]
      have hcount : (Op.drawImage pth x y w h :: rest).count Op.newPage =
          rest.count Op.newPage := by
        simp [List.count_cons]
      rw [hcount]; exact ih _

/-! ### Cursor-flow lemmas -/

lemma scaled_pos {w h : ℚ} (hw : 0 < w) (hh : 0 < h) :
    0 < (scaledSize w h).2 := by
  have h1 : (0 : ℚ) < (pageWidth - 2 * margin) / w :=
    div_pos (by norm_num [pageWidth, margin]) hw
  have h2 : (0 : ℚ) < 252 / h := div_pos (by norm_num) hh
  have h3 : (0 : ℚ) < min ((pageWidth - 2 * margin) / w) (min (252 / h) 1) :=
    lt_min h1 (lt_min h2 one_pos)
  simpa [scaledSize] using mul_pos hh h3

lemma scaledHeight_nonneg (env : LayoutEnv)
    (hdims : ∀ p w h, env.imgSize p = some (w, h) → 0 < w ∧ 0 < h)
    (sf : SavedFile) : 0 ≤ scaledHeight env sf := by
  by_cases hi : sf.is_img
  · cases hwh : env.imgSize (uploadsPath sf.name) with
    | none => simp [scaledHeight, hi, hwh]
    | some wh =>
      have hd := hdims _ wh.1 wh.2 (by simpa using hwh)
      have := scaled_pos hd.1 hd.2
      simp only [scaledHeight, hi, if_true, hwh]
      linarith
  · simp [scaledHeight, hi]

lemma sumScaled_nil (env : LayoutEnv) : sumScaled env [] = 0 := rfl

lemma sumScaled_cons (env : LayoutEnv) (sf : SavedFile) (rest : List SavedFile) :
    sumScaled env (sf :: rest) = scaledHeight env sf + sumScaled env rest := by
  simp [sumScaled]

lemma sumScaled_nonneg (env : LayoutEnv)
    (hdims : ∀ p w h, env.imgSize p = some (w, h) → 0 < w ∧ 0 < h) :
    ∀ saved : List SavedFile, 0 ≤ sumScaled env saved := by
  intro saved
  induction saved with
  | nil => simp [sumScaled_nil]
  | cons sf rest ih =>
    rw [sumScaled_cons]
    have := scaledHeight_nonneg env hdims sf
    linarith

lemma sumScaled_eq_zero_of_no_images (env : LayoutEnv) :
    ∀ saved : List SavedFile, (∀ sf ∈ saved, sf.is_img = false) →
      sumScaled env saved = 0 := by
  intro saved
  induction saved with
  | nil => intro _; rfl
  | cons sf rest ih =>
    intro h
    rw [sumScaled_cons, ih (fun x hx => h x (List.mem_cons_of_mem sf hx))]
    simp [scaledHeight, h sf (List.mem_cons_self sf rest)]

lemma any_images_of_sumScaled_pos (env : LayoutEnv) (saved : List SavedFile)
    (h : 0 < sumScaled env saved) :
    saved.any (fun sf => sf.is_img) = true := by
  by_contra hany
  have hall : ∀ sf ∈ saved, sf.is_img = false := by
    intro sf hsf
    have := List.any_eq_false.mp (Bool.eq_false_iff.mpr hany) sf hsf
    simpa using this
  rw [sumScaled_eq_zero_of_no_images env saved hall] at h
  exact absurd h (by norm_num)

lemma drawImages_no_images (env : LayoutEnv) :
    ∀ (l : List SavedFile) (y : ℚ), (∀ sf ∈ l, sf.is_img = false) →
      drawImages env y l = ([], y) := by
  intro l
  induction l with
  | nil => intro y _; rfl
  | cons sf rest ih =>
    intro y h
    have h0 := h sf (List.mem_cons_self sf rest)
    simp [drawImages, h0, ih y (fun x hx => h x (List.mem_cons_of_mem sf hx))]

lemma newPage_mem_pageBreak (env : LayoutEnv) :
    Op.newPage ∈ pageBreakOps env := by
  simp [pageBreakOps]

/-- In a run of the image loop that emits no page break, the cursor drops
by at least the total scaled image height, and if the list contains any
image the final cursor is still at least `margin + 68` (the last drawn
image passed its space check). -/
lemma drawImages_noBreak (env : LayoutEnv)
    (hdims : ∀ p w h, env.imgSize p = some (w, h) → 0 < w ∧ 0 < h) :
    ∀ (saved : List SavedFile) (y : ℚ),
      (∀ sf ∈ saved, sf.is_img = true →
        (env.imgSize (uploadsPath sf.name)).isSome = true) →
      Op.newPage ∉ (drawImages env y saved).1 →
      (drawImages env y saved).2 ≤ y - sumScaled env saved ∧
      (saved.any (fun sf => sf.is_img) = true →
        margin + 68 ≤ (drawImages env y saved).2) := by
  intro saved
  induction saved with
  | nil =>
    intro y _ _
    constructor
    · simp [drawImages, sumScaled_nil]
    · intro h; simp at h
  | cons sf rest ih =>
    intro y hdec hnp
    have hrest : ∀ x ∈ rest, x.is_img = true →
        (env.imgSize (uploadsPath x.name)).isSome = true :=
      fun x hx => hdec x (List.mem_cons_of_mem sf hx)
    by_cases hi : sf.is_img
    · obtain ⟨wh, hwh⟩ := Option.isSome_iff_exists.mp
        (hdec sf (List.mem_cons_self sf rest) hi)
      have hd := hdims _ wh.1 wh.2 (by simpa using hwh)
      have hdh : 0 < (scaledSize wh.1 wh.2).2 := scaled_pos hd.1 hd.2
      by_cases hc : y - (scaledSize wh.1 wh.2).2 < margin + 80
      · exfalso
        apply hnp
        simp only [drawImages, hi, if_true, List.mem_append]
        left
        simp [drawImageStep, hwh, hc, newPage_mem_pageBreak]
      · have hstep : drawImageStep env y sf.name =
            ([Op.drawImage (uploadsPath sf.name) margin
                (y - (scaledSize wh.1 wh.2).2) (scaledSize wh.1 wh.2).1
                (scaledSize wh.1 wh.2).2],
             y - ((scaledSize wh.1 wh.2).2 + 12)) := by
          simp [drawImageStep, hwh, hc]
        have hun : drawImages env y (sf :: rest) =
            ((drawImageStep env y sf.name).1 ++
              (drawImages env (drawImageStep env y sf.name).2 rest).1,
             (drawImages env (drawImageStep env y sf.name).2 rest).2) := by
          simp [drawImages, hi]
        rw [hun] at hnp ⊢
        have hnp' : Op.newPage ∉
            (drawImages env (drawImageStep env y sf.name).2 rest).1 := by
          intro hmem
          exact hnp (List.mem_append.mpr (Or.inr hmem))
        have hihr := ih (drawImageStep env y sf.name).2 hrest hnp'
        rw [hstep] at hihr ⊢
        have hch : scaledHeight env sf = (scaledSize wh.1 wh.2).2 := by
          simp [scaledHeight, hi, hwh]
        constructor
        · have h1 := hihr.1
          rw [sumScaled_cons, hch]
          simp only at h1 ⊢
          linarith
        · intro _
          by_cases hany : rest.any (fun x => x.is_img) = true
          · exact hihr.2 hany
          · have hall : ∀ x ∈ rest, x.is_img = false := by
              intro x hx
              have := List.any_eq_false.mp (Bool.eq_false_iff.mpr hany) x hx
              simpa using this
            have hre := drawImages_no_images env rest
              (y - ((scaledSize wh.1 wh.2).2 + 12)) hall
            simp only [hre]
            push_neg at hc
            linarith
    · have hi' : sf.is_img = false := by simpa using hi
      have hun : drawImages env y (sf :: rest) = drawImages env y rest := by
        simp [drawImages, hi']
      rw [hun] at hnp ⊢
      have hihr := ih y hrest hnp
      constructor
      · rw [sumScaled_cons]
        have : scaledHeight env sf = 0 := by simp [scaledHeight, hi']
        rw [this]
        simpa using hihr.1
      · intro hany
        apply hihr.2
        simpa [hi'] using hany

lemma drawAttachEntries_snd :
    ∀ (l : List (String × String)) (y : ℚ),
      (drawAttachEntries y l).2 = y - 30 * (l.length : ℚ) := by
  intro l
  induction l with
  | nil => intro y; simp [drawAttachEntries]
  | cons p rest ih =>
    intro y
    simp only [drawAttachEntries, ih, List.length_cons]
    push_cast
    ring

lemma drawAttachList_noBreak (env : LayoutEnv) (l : List (String × String))
    (y : ℚ) (hnp : Op.newPage ∉ (drawAttachList env l y).1) :
    (drawAttachList env l y).2 ≤ y ∧ (l ≠ [] → margin + 80 ≤ y) := by
  by_cases he : l.isEmpty
  · have hl : l = [] := by simpa [List.isEmpty_iff] using he
    constructor
    · simp [drawAttachList, he]
    · intro h; exact absurd hl h
  · have he' : l.isEmpty = false := by simpa using he
    by_cases hc : y < margin + 80
    · exfalso
      apply hnp
      simp [drawAttachList, he', hc, newPage_mem_pageBreak]
    · push_neg at hc
      constructor
      · have : (drawAttachList env l y).2 =
            y - 14 - 30 * (l.length : ℚ) := by
          simp [drawAttachList, he', not_lt.mpr hc, drawAttachEntries_snd]
        rw [this]
        have : (0 : ℚ) ≤ (l.length : ℚ) := Nat.cast_nonneg _
        linarith
      · intro _; exact hc

lemma newPage_mem_drawIssue (env : LayoutEnv) (link : Option String) (y : ℚ) :
    Op.newPage ∈ (drawIssue env link y).1 ↔ y < margin + 60 := by
  by_cases hc : y < margin + 60 <;>
    simp [drawIssue, hc, newPage_mem_pageBreak, pageBreakOps]

lemma newPage_not_mem_header (env : LayoutEnv) (site date heading rca_by : String) :
    Op.newPage ∉ headerOps env site date heading rca_by := by
  cases hl : env.logoExists <;>
    simp [headerOps, logoOps, hl, metaLineOps, logoOp]

lemma newPage_not_mem_descOps (ls : List String) (y : ℚ) :
    Op.newPage ∉ descOps y ls := by
  simp [descOps]

lemma newPage_not_mem_description (env : LayoutEnv) (d : String) (y : ℚ) :
    Op.newPage ∉ (drawDescription env d y).1 := by
  simp [drawDescription, newPage_not_mem_descOps]

/-- The cursor value after the description block. -/
lemma drawDescription_snd (env : LayoutEnv) (d : String) (y : ℚ) :
    (drawDescription env d y).2 =
      y - 14 - 12 * ((descLines env.wf d).length : ℚ) - 20 := rfl

/-! ### Well-formedness of each section's stream -/

lemma goodOps_imageStep (env : LayoutEnv) (hlogo : env.logoExists = true)
    (y : ℚ) (f : String) : GoodOps (drawImageStep env y f).1 := by
  cases hwh : env.imgSize (uploadsPath f) with
  | none => exact goodOps_of_not_mem (by simp [drawImageStep, hwh])
  | some wh =>
    by_cases hc : y - (scaledSize wh.1 wh.2).2 < margin + 80
    · have : (drawImageStep env y f).1 = pageBreakOps env ++
          [Op.drawImage (uploadsPath f) margin
            (freshY - (scaledSize wh.1 wh.2).2) (scaledSize wh.1 wh.2).1
            (scaledSize wh.1 wh.2).2] := by
        simp [drawImageStep, hwh, hc]
      rw [this]
      exact goodOps_break env hlogo (by simp) (by simp)
    · exact goodOps_of_not_mem (by simp [drawImageStep, hwh, hc])

lemma goodOps_drawImages (env : LayoutEnv) (hlogo : env.logoExists = true) :
    ∀ (saved : List SavedFile) (y : ℚ), GoodOps (drawImages env y saved).1 := by
  intro saved
  induction saved with
  | nil => intro y; exact goodOps_nil
  | cons sf rest ih =>
    intro y
    by_cases hi : sf.is_img
    · have : drawImages env y (sf :: rest) =
          ((drawImageStep env y sf.name).1 ++
            (drawImages env (drawImageStep env y sf.name).2 rest).1,
           (drawImages env (drawImageStep env y sf.name).2 rest).2) := by
        simp [drawImages, hi]
      rw [this]
      exact goodOps_append (goodOps_imageStep env hlogo y sf.name) (ih _)
    · have hi' : sf.is_img = false := by simpa using hi
      have : drawImages env y (sf :: rest) = drawImages env y rest := by
        simp [drawImages, hi']
      rw [this]
      exact ih y

lemma goodOps_attachList (env : LayoutEnv) (hlogo : env.logoExists = true)
    (l : List (String × String)) (y : ℚ) :
    GoodOps (drawAttachList env l y).1 := by
  by_cases he : l.isEmpty
  · simp only [drawAttachList, he, if_true]
    exact goodOps_nil
  · have he' : l.isEmpty = false := by simpa using he
    by_cases hc : y < margin + 80
    · have : (drawAttachList env l y).1 = pageBreakOps env ++
          ([Op.setFont "Helvetica-Bold" 10,
            Op.drawString margin freshY "Attachments:",
            Op.setFont "Helvetica" 9] ++ (drawAttachEntries (freshY - 14) l).1) := by
        simp [drawAttachList, he', hc]
      rw [this]
      exact goodOps_break env hlogo
        (by simp [newPage_not_mem_attachEntries]) (by simp)
    · exact goodOps_of_not_mem
        (by simp [drawAttachList, he', hc, newPage_not_mem_attachEntries])

lemma goodOps_issue (env : LayoutEnv) (hlogo : env.logoExists = true)
    (link : Option String) (y : ℚ) : GoodOps (drawIssue env link y).1 := by
  by_cases hc : y < margin + 60
  · have : (drawIssue env link y).1 = pageBreakOps env ++
        [Op.setFont "Helvetica-Bold" 10,
         Op.drawString margin freshY "GitHub Issue Link:",
         Op.setFont "Helvetica" 9,
         Op.drawString margin (freshY - 14) (pyStr link)] := by
      simp [drawIssue, hc]
    rw [this]
    exact goodOps_break env hlogo (by simp) (by simp)
  · exact goodOps_of_not_mem (by simp [drawIssue, hc])

/-! ### Break existence and the pagination claim -/

/-- When the wrapped description is taller than a whole page's printable
height, or the cumulative scaled image height is, at least one page break
happens in the image loop, the attachment list, or the issue-link
section. -/
lemma break_exists (env : LayoutEnv) (description : String)
    (saved : List SavedFile) (link : Option String)
    (hdims : ∀ p w h, env.imgSize p = some (w, h) → 0 < w ∧ 0 < h)
    (hdec : ∀ sf ∈ saved, sf.is_img = true →
      (env.imgSize (uploadsPath sf.name)).isSome = true)
    (hover : 12 * ((descLines env.wf description).length : ℚ) >
        pageHeight - 2 * margin ∨
      sumScaled env saved > pageHeight - 2 * margin) :
    Op.newPage ∈
      (drawImages env (drawDescription env description metaEndY).2 saved).1 ∨
    Op.newPage ∈ (drawAttachList env (nonImagesOf saved)
      (drawImages env (drawDescription env description metaEndY).2 saved).2).1 ∨
    Op.newPage ∈ (drawIssue env link (drawAttachList env (nonImagesOf saved)
      (drawImages env (drawDescription env description metaEndY).2 saved).2).2).1 := by
  have hm : margin = 50 := rfl
  have hn0 : (0 : ℚ) ≤ ((descLines env.wf description).length : ℚ) :=
    Nat.cast_nonneg _
  have hy₂ : (drawDescription env description metaEndY).2 =
      pageHeight - 286 - 12 * ((descLines env.wf description).length : ℚ) := by
    rw [drawDescription_snd]
    simp only [metaEndY]
    ring
  by_cases h3 : Op.newPage ∈
      (drawImages env (drawDescription env description metaEndY).2 saved).1
  · exact Or.inl h3
  have hnb := drawImages_noBreak env hdims saved
    (drawDescription env description metaEndY).2 hdec h3
  rcases hover with hdesc | himg
  · have hy2lt : (drawDescription env description metaEndY).2 < -186 := by
      rw [hy₂]; linarith
    have hs0 : 0 ≤ sumScaled env saved := sumScaled_nonneg env hdims saved
    have h3lt : (drawImages env (drawDescription env description metaEndY).2
        saved).2 < -186 := by
      have := hnb.1
      linarith
    by_cases h4 : Op.newPage ∈ (drawAttachList env (nonImagesOf saved)
        (drawImages env (drawDescription env description metaEndY).2 saved).2).1
    · exact Or.inr (Or.inl h4)
    have hab := drawAttachList_noBreak env (nonImagesOf saved) _ h4
    refine Or.inr (Or.inr ?_)
    rw [newPage_mem_drawIssue]
    have := hab.1
    linarith
  · exfalso
    have hy2le : (drawDescription env description metaEndY).2 ≤
        pageHeight - 286 := by
      rw [hy₂]; linarith
    have hph : (0 : ℚ) < pageHeight - 2 * margin := by
      norm_num [pageHeight, margin]
    have hpos : 0 < sumScaled env saved := lt_trans hph himg
    have hany := any_images_of_sumScaled_pos env saved hpos
    have hfloor := hnb.2 hany
    have h32 := hnb.1
    linarith

/-- The first operation of the canvas stream is the logo stamp whenever
the logo file exists. -/
lemma renderOps_head (env : LayoutEnv) (hlogo : env.logoExists = true)
    (site date heading rca_by description : String) (saved : List SavedFile)
    (link : Option String) :
    (renderOps env site date heading rca_by description saved link).head? =
      some logoOp := by
  simp [renderOps, headerOps, logoOps, hlogo]

set_option maxHeartbeats 2000000 in
/-- C3 (amended): whenever the wrapped description is taller than a whole
page's printable height, or the image attachments' cumulative scaled
height is, the rendered document has at least two pages and every page
begins with the logo stamp — assuming the logo file exists, every image
decodes with positive pixel dimensions, as the claim's premise
presupposes.  (The claim's further no-clipping conjunct is dropped: see
the counterexample, description lines receive no page-break handling.) -/
theorem c3_pagination_amended (env : LayoutEnv)
    (site date heading rca_by description : String) (saved : List SavedFile)
    (link : Option String)
    (hlogo : env.logoExists = true)
    (hdims : ∀ p w h, env.imgSize p = some (w, h) → 0 < w ∧ 0 < h)
    (hdec : ∀ sf ∈ saved, sf.is_img = true →
      (env.imgSize (uploadsPath sf.name)).isSome = true)
    (hover : 12 * ((descLines env.wf description).length : ℚ) >
        pageHeight - 2 * margin ∨
      sumScaled env saved > pageHeight - 2 * margin) :
    2 ≤ (renderDoc env site date heading rca_by description saved link).length ∧
    ∀ p ∈ renderDoc env site date heading rca_by description saved link,
      p.head? = some logoOp := by
  have hbody : renderOps env site date heading rca_by description saved link =
      (headerOps env site date heading rca_by ++
       (drawDescription env description metaEndY).1 ++
       (drawImages env (drawDescription env description metaEndY).2 saved).1 ++
       (drawAttachList env (nonImagesOf saved)
         (drawImages env (drawDescription env description metaEndY).2 saved).2).1 ++
       (drawIssue env link (drawAttachList env (nonImagesOf saved)
         (drawImages env (drawDescription env description metaEndY).2
           saved).2).2).1) ++ [Op.newPage] := rfl
  have hgood : GoodOps
      (headerOps env site date heading rca_by ++
       (drawDescription env description metaEndY).1 ++
       (drawImages env (drawDescription env description metaEndY).2 saved).1 ++
       (drawAttachList env (nonImagesOf saved)
         (drawImages env (drawDescription env description metaEndY).2 saved).2).1 ++
       (drawIssue env link (drawAttachList env (nonImagesOf saved)
         (drawImages env (drawDescription env description metaEndY).2
           saved).2).2).1) :=
    goodOps_append
      (goodOps_append
        (goodOps_append
          (goodOps_append
            (goodOps_of_not_mem
              (newPage_not_mem_header env site date heading rca_by))
            (goodOps_of_not_mem
              (newPage_not_mem_description env description metaEndY)))
          (goodOps_drawImages env hlogo saved _))
        (goodOps_attachList env hlogo _ _))
      (goodOps_issue env hlogo link _)
  have hchain : List.Chain' npOk
      (renderOps env site date heading rca_by description saved link) := by
    rw [hbody]
    refine List.chain'_append.mpr ⟨hgood.1, List.chain'_singleton _, ?_⟩
    intro x hx y hy hxnp
    exfalso
    apply hgood.2
    rw [Option.mem_def] at hx
    rw [hx, hxnp]
  constructor
  · have hbrk := break_exists env description saved link hdims hdec hover
    have hmem : Op.newPage ∈
        (headerOps env site date heading rca_by ++
         (drawDescription env description metaEndY).1 ++
         (drawImages env (drawDescription env description metaEndY).2 saved).1 ++
         (drawAttachList env (nonImagesOf saved)
           (drawImages env (drawDescription env description metaEndY).2 saved).2).1 ++
         (drawIssue env link (drawAttachList env (nonImagesOf saved)
           (drawImages env (drawDescription env description metaEndY).2
             saved).2).2).1) := by
      simp only [List.mem_append]
      tauto
    have hcount : 2 ≤ (renderOps env site date heading rca_by description
        saved link).count Op.newPage := by
      rw [hbody, List.count_append]
      have h1 := List.count_pos_iff.mpr hmem
      have h2 : ([Op.newPage] : List Op).count Op.newPage = 1 := by simp
      omega
    exact le_trans hcount (count_le_pagesOfAux _ [])
  · intro p hp
    exact pagesOfAux_logo
      (renderOps env site date heading rca_by description saved link) []
      hchain (fun _ => renderOps_head env hlogo site date heading rca_by
        description saved link)
      (fun h => absurd rfl h) p hp

/-- The layout environment of the C3 scenario: logo present, six points
of width per character, no decodable images. -/
def c3Layout : LayoutEnv :=
  ⟨true, fun s => 6 * (s.length : ℚ), fun _ => none, fun _ => "err"⟩

/-- A description of sixty one-character paragraphs: it always wraps to
120 text lines (well over a page) under any width metric. -/
def c3Desc : String := String.intercalate "\n" (List.replicate 60 "a")

set_option maxHeartbeats 4000000 in
set_option maxRecDepth 100000 in
unseal Rat.add Rat.mul Rat.sub Rat.inv in
/-- C3 is false as stated: on this submission the description wraps onto
far more lines than fit one page (premise of the claim), yet the text
object draws its lines with no page-break handling, so drawn elements
land below the bottom margin — the document is clipped, violating the
claim's no-clipping conjunct. -/
theorem c3_counterexample :
    ((12 : ℚ) * ((descLines c3Layout.wf c3Desc).length : ℚ) >
      pageHeight - 2 * margin) ∧
    ((renderOps c3Layout "Plant A" "2024-01-01" "Conveyor Jam" "J. Doe"
        c3Desc [] (some "L")).any belowBottomMargin = true) := by
  decide

set_option maxHeartbeats 4000000 in
set_option maxRecDepth 100000 in
unseal Rat.add Rat.mul Rat.sub Rat.inv in
/-- Witness for the amended C3: the same overflowing submission yields a
two-page document whose pages both start with the logo stamp. -/
theorem c3_witness :
    2 ≤ (renderDoc c3Layout "Plant A" "2024-01-01" "Conveyor Jam" "J. Doe"
        c3Desc [] (some "L")).length ∧
    ∀ p ∈ renderDoc c3Layout "Plant A" "2024-01-01" "Conveyor Jam" "J. Doe"
        c3Desc [] (some "L"), p.head? = some logoOp :=
  c3_pagination_amended c3Layout "Plant A" "2024-01-01" "Conveyor Jam" "J. Doe"
    c3Desc [] (some "L") rfl
    (fun _ _ _ hsome => Option.noConfusion hsome)
    (fun sf hsf => absurd hsf (List.not_mem_nil sf))
    (Or.inl (by decide))

end RCA
